import Mathlib

/-!
Verification development for the workspace fork engine
(`Workspace.fork` in `manager_agent/workspace_utils.py`) and the
sub-agent orchestrator (`spawn_sub_agents` in `manager_agent/agent.py`).

The remote Gateway is modelled as an oracle (`ForkEnv`, `OrchEnv`)
recording the outcome of every network call the client issues.  Time is
modelled by the iteration count of the poll loop: the loop sleeps one
second per iteration (`time.sleep(1)`), so the monotonic clock at
iteration `k` reads `k` seconds after `deadline = time.monotonic() +
timeout` was taken, and the deadline test `time.monotonic() >= deadline`
becomes `timeout ≤ (k : ℚ)`.
-/

namespace ManagerAgent

/-- Payload of a failed Gateway call (the httpx error's status/message). -/
structure GatewayErr where
  msg : String
deriving DecidableEq, Repr, Inhabited

/-- Fields of the JSON body returned by `GET /snapshots/status` that the
client can observe: the truthiness of the `ready` key (`status.get("ready")`),
the `snapshot_name` (present once ready), and whether the reported status
field is `failed`.  `fork` itself reads only `ready` and `snapshot_name`. -/
structure StatusResp where
  ready : Bool
  snapshot_name : String
  statusIsFailed : Bool
deriving DecidableEq, Repr, Inhabited

/-- Outcome of one `get_snapshot_status` call as seen by `fork`'s loop:
a successful JSON body, an `httpx.HTTPStatusError` raised by
`raise_for_status` (the only exception class the loop's `except` clause
catches, turning it into `status = {}`), or a transport-level error
(connection failure, read timeout, ...), which `except httpx.HTTPStatusError`
does not catch. -/
inductive PollOutcome where
  | ok (s : StatusResp)
  | httpStatusErr
  | transportErr (e : GatewayErr)
deriving DecidableEq, Repr

/-- Oracle for the Gateway calls issued by one `fork` invocation: the result
of `create_snapshot_trigger` (giving the trigger's `name` on success), the
result of the `k`-th status poll, and the `workspace_id` returned by the
`k`-th `restore_from_snapshot` call.  Every restore passes the same
`snapshot_name` (read from the ready status body), so restores are indexed
by call number. -/
structure ForkEnv where
  triggerResult : Except GatewayErr String
  poll : Nat → PollOutcome
  restore : Nat → Except GatewayErr String

/-- Result of `fork`'s polling phase: `ready k s` means the loop `break`s at
poll `k` whose body `s` has a truthy `ready` key; `timeoutHit k` means the
`TimeoutError` is raised right after poll `k`; `transportAbort k e` means
poll `k` raised an error the loop does not catch; `fuelExhausted` is an
artifact of the fuel encoding of the `while True` loop, proved unreachable
below. -/
inductive PollPhase where
  | ready (k : Nat) (s : StatusResp)
  | timeoutHit (k : Nat)
  | transportAbort (k : Nat) (e : GatewayErr)
  | fuelExhausted
deriving DecidableEq, Repr

/-- The body of `fork`'s `while True:` loop.  At iteration `k` the loop
polls (`get_snapshot_status`); a caught `HTTPStatusError` leaves
`status = {}` so `status.get("ready")` is falsy; a truthy `ready` breaks;
otherwise the deadline test `time.monotonic() >= deadline` (here
`timeout ≤ k`) raises `TimeoutError`, else the loop sleeps 1s and
repeats.  `fuel` bounds the recursion and is chosen large enough below. -/
def pollLoopAux (env : ForkEnv) (timeout : ℚ) : Nat → Nat → PollPhase
  | 0, _ => .fuelExhausted
  | fuel + 1, k =>
    match env.poll k with
    | .transportErr e => .transportAbort k e
    | .httpStatusErr =>
      if timeout ≤ (k : ℚ) then .timeoutHit k
      else pollLoopAux env timeout fuel (k + 1)
    | .ok s =>
      if s.ready then .ready k s
      else if timeout ≤ (k : ℚ) then .timeoutHit k
      else pollLoopAux env timeout fuel (k + 1)

/-- The polling phase of `fork`, started at iteration 0 with enough fuel:
the loop can run at most `⌈timeout⌉₊ + 1` iterations because iteration
`⌈timeout⌉₊` satisfies the deadline test. -/
def pollLoop (env : ForkEnv) (timeout : ℚ) : PollPhase :=
  pollLoopAux env timeout (⌈timeout⌉₊ + 1) 0

/-- The restore loop of `fork`: `count` successive `restore_from_snapshot`
calls.  On success, the list of created `workspace_id`s in restore order;
on a failing restore, the error together with the ids already created
before it (in the source the exception simply propagates, so that list is
lost to the caller). -/
def runRestores (env : ForkEnv) (k : Nat) : Nat → Except (List String × GatewayErr) (List String)
  | 0 => .ok []
  | n + 1 =>
    match env.restore k with
    | .error e => .error ([], e)
    | .ok wid =>
      match runRestores env (k + 1) n with
      | .ok rest => .ok (wid :: rest)
      | .error (created, e) => .error (wid :: created, e)

/-- How one `Workspace.fork` call terminates.  `timeoutError tn t` is the
`TimeoutError(f"Snapshot {tn!r} not ready after {t}s")` raise, carrying
the trigger name and the timeout; `restoreError created e` is a restore
call raising after `created` workspaces were already made;
`fuelExhausted` mirrors `PollPhase.fuelExhausted` and is unreachable. -/
inductive ForkResult where
  | ok (wss : List String)
  | triggerError (e : GatewayErr)
  | pollTransportError (e : GatewayErr)
  | timeoutError (trigger_name : String) (timeout : ℚ)
  | restoreError (created : List String) (e : GatewayErr)
  | fuelExhausted
deriving DecidableEq, Repr

/-- Result of a `fork` call instrumented with the number of Gateway calls
of each kind it issued (`create_snapshot_trigger`, `get_snapshot_status`,
`restore_from_snapshot`). -/
structure ForkOutcome where
  result : ForkResult
  triggerCalls : Nat
  pollCalls : Nat
  restoreCalls : Nat
deriving DecidableEq, Repr

/-- One `Workspace.fork(source, num_of_workspace=n, timeout=t)` call under
oracle `env`: create the snapshot trigger (whose failure propagates before
any poll), poll until truthy-`ready`/timeout/uncaught error, then issue
`num_of_workspace` restore calls. -/
def fork (env : ForkEnv) (num_of_workspace : Nat) (timeout : ℚ) : ForkOutcome :=
  match env.triggerResult with
  | .error e => ⟨.triggerError e, 1, 0, 0⟩
  | .ok trigger_name =>
    match pollLoop env timeout with
    | .transportAbort k e => ⟨.pollTransportError e, 1, k + 1, 0⟩
    | .timeoutHit k => ⟨.timeoutError trigger_name timeout, 1, k + 1, 0⟩
    | .fuelExhausted => ⟨.fuelExhausted, 1, 0, 0⟩
    | .ready k _s =>
      match runRestores env 0 num_of_workspace with
      | .ok wss => ⟨.ok wss, 1, k + 1, num_of_workspace⟩
      | .error (created, e) => ⟨.restoreError created e, 1, k + 1, created.length + 1⟩

/-- A ready status body with a snapshot name, used by concrete traces. -/
def readySnap : StatusResp := ⟨true, "snap-1", false⟩

/-- A poll outcome the loop treats as "not yet ready" (and hence keeps
polling on): a caught HTTP status error, or a successful body whose
`ready` key is falsy.  An uncaught transport error never continues. -/
def pollContinues : PollOutcome → Prop
  | .ok s => s.ready = false
  | .httpStatusErr => True
  | .transportErr _ => False

lemma pollLoopAux_timeout (env : ForkEnv) (timeout : ℚ) :
    ∀ fuel k, (∀ j, k ≤ j → j ≤ ⌈timeout⌉₊ → pollContinues (env.poll j)) →
      k ≤ ⌈timeout⌉₊ → ⌈timeout⌉₊ < fuel + k →
      pollLoopAux env timeout fuel k = .timeoutHit ⌈timeout⌉₊ := by
  intro fuel
  induction fuel with
  | zero => intro k _ hk hf; omega
  | succ fuel ih =>
    intro k h hk hf
    have hck := h k le_rfl hk
    simp only [pollLoopAux]
    cases hpk : env.poll k with
    | transportErr e => rw [hpk] at hck; simp [pollContinues] at hck
    | httpStatusErr =>
      by_cases htk : timeout ≤ (k : ℚ)
      · have h1 : ⌈timeout⌉₊ ≤ k := Nat.ceil_le.mpr htk
        have h2 : k = ⌈timeout⌉₊ := le_antisymm hk h1
        rw [if_pos htk, h2]
      · have hklt : k < ⌈timeout⌉₊ := Nat.lt_ceil.mpr (lt_of_not_le htk)
        simp only [htk, if_false]
        exact ih (k + 1) (fun j hj1 hj2 => h j (by omega) hj2) (by omega) (by omega)
    | ok s =>
      rw [hpk] at hck
      have hs : s.ready = false := hck
      by_cases htk : timeout ≤ (k : ℚ)
      · have h1 : ⌈timeout⌉₊ ≤ k := Nat.ceil_le.mpr htk
        have h2 : k = ⌈timeout⌉₊ := le_antisymm hk h1
        simp only [hs, Bool.false_eq_true, if_false]
        rw [if_pos htk, h2]
      · have hklt : k < ⌈timeout⌉₊ := Nat.lt_ceil.mpr (lt_of_not_le htk)
        simp only [hs, htk, if_false, Bool.false_eq_true]
        exact ih (k + 1) (fun j hj1 hj2 => h j (by omega) hj2) (by omega) (by omega)

lemma pollLoopAux_ready (env : ForkEnv) (timeout : ℚ) (k : Nat) (s : StatusResp)
    (hs : env.poll k = .ok s) (hr : s.ready = true) :
    ∀ fuel k0, (∀ j, k0 ≤ j → j < k → pollContinues (env.poll j) ∧ (j : ℚ) < timeout) →
      k0 ≤ k → k < fuel + k0 →
      pollLoopAux env timeout fuel k0 = .ready k s := by
  intro fuel
  induction fuel with
  | zero => intro k0 _ hk0 hf; omega
  | succ fuel ih =>
    intro k0 h hk0 hf
    rcases Nat.eq_or_lt_of_le hk0 with heq | hlt
    · subst heq
      simp only [pollLoopAux]
      rw [hs]
      simp [hr]
    · have h0 := h k0 le_rfl hlt
      simp only [pollLoopAux]
      cases hpk : env.poll k0 with
      | transportErr e => rw [hpk] at h0; simp [pollContinues] at h0
      | httpStatusErr =>
        have hnt : ¬ timeout ≤ (k0 : ℚ) := not_le.mpr h0.2
        simp only [hnt, if_false]
        exact ih (k0 + 1) (fun j hj1 hj2 => h j (by omega) hj2) hlt (by omega)
      | ok s0 =>
        rw [hpk] at h0
        have hs0 : s0.ready = false := h0.1
        have hnt : ¬ timeout ≤ (k0 : ℚ) := not_le.mpr h0.2
        simp only [hs0, hnt, if_false, Bool.false_eq_true]
        exact ih (k0 + 1) (fun j hj1 hj2 => h j (by omega) hj2) hlt (by omega)

lemma pollLoopAux_ne_fuelExhausted (env : ForkEnv) (timeout : ℚ) :
    ∀ fuel k, ⌈timeout⌉₊ < fuel + k → k ≤ ⌈timeout⌉₊ →
      pollLoopAux env timeout fuel k ≠ .fuelExhausted := by
  intro fuel
  induction fuel with
  | zero => intro k hf hk; omega
  | succ fuel ih =>
    intro k hf hk
    simp only [pollLoopAux]
    cases env.poll k with
    | transportErr e => simp
    | httpStatusErr =>
      by_cases htk : timeout ≤ (k : ℚ)
      · simp [htk]
      · have hklt : k < ⌈timeout⌉₊ := Nat.lt_ceil.mpr (lt_of_not_le htk)
        simp only [htk, if_false]
        exact ih (k + 1) (by omega) (by omega)
    | ok s =>
      by_cases hrs : s.ready
      · simp [hrs]
      · by_cases htk : timeout ≤ (k : ℚ)
        · simp [hrs, htk]
        · have hklt : k < ⌈timeout⌉₊ := Nat.lt_ceil.mpr (lt_of_not_le htk)
          simp only [hrs, htk, if_false, Bool.false_eq_true]
          exact ih (k + 1) (by omega) (by omega)

lemma pollLoop_ne_fuelExhausted (env : ForkEnv) (timeout : ℚ) :
    pollLoop env timeout ≠ .fuelExhausted :=
  pollLoopAux_ne_fuelExhausted env timeout (⌈timeout⌉₊ + 1) 0 (by omega) (by omega)

lemma pollLoop_timeout (env : ForkEnv) (timeout : ℚ)
    (h : ∀ j, j ≤ ⌈timeout⌉₊ → pollContinues (env.poll j)) :
    pollLoop env timeout = .timeoutHit ⌈timeout⌉₊ :=
  pollLoopAux_timeout env timeout (⌈timeout⌉₊ + 1) 0 (fun j _ => h j) (by omega) (by omega)

lemma pollLoop_ready (env : ForkEnv) (timeout : ℚ) (k : Nat) (s : StatusResp)
    (hs : env.poll k = .ok s) (hr : s.ready = true)
    (h : ∀ j, j < k → pollContinues (env.poll j) ∧ (j : ℚ) < timeout) :
    pollLoop env timeout = .ready k s := by
  have hk : k < ⌈timeout⌉₊ + 1 := by
    cases k with
    | zero => omega
    | succ k0 =>
      have h1 := (h k0 (by omega)).2
      have h2 : k0 < ⌈timeout⌉₊ := Nat.lt_ceil.mpr h1
      omega
  exact pollLoopAux_ready env timeout k s hs hr (⌈timeout⌉₊ + 1) 0
    (fun j _ hj => h j hj) (Nat.zero_le k) (by omega)

lemma runRestores_ok (env : ForkEnv) :
    ∀ n k wss, runRestores env k n = .ok wss →
      wss.length = n ∧
      ∀ i, i < n → ∃ a, env.restore (k + i) = .ok a ∧ wss.get? i = some a := by
  intro n
  induction n with
  | zero =>
    intro k wss h
    simp only [runRestores] at h
    cases h
    exact ⟨rfl, fun i hi => absurd hi (Nat.not_lt_zero i)⟩
  | succ n ih =>
    intro k wss h
    simp only [runRestores] at h
    cases hres : env.restore k with
    | error e => rw [hres] at h; simp at h
    | ok wid =>
      rw [hres] at h
      cases hrec : runRestores env (k + 1) n with
      | error p => rw [hrec] at h; simp at h
      | ok rest =>
        rw [hrec] at h
        simp only [Except.ok.injEq] at h
        subst h
        obtain ⟨hlen, hidx⟩ := ih (k + 1) rest hrec
        refine ⟨by simp [hlen], fun i hi => ?_⟩
        cases i with
        | zero => exact ⟨wid, by simpa using hres, rfl⟩
        | succ i0 =>
          obtain ⟨a, ha, hg⟩ := hidx i0 (by omega)
          have hk : k + (i0 + 1) = k + 1 + i0 := by omega
          exact ⟨a, by rw [hk]; exact ha, by simpa using hg⟩

lemma fork_ok_runRestores (env : ForkEnv) (n : Nat) (timeout : ℚ) (wss : List String)
    (h : (fork env n timeout).result = .ok wss) :
    runRestores env 0 n = .ok wss := by
  unfold fork at h
  cases htr : env.triggerResult with
  | error e => rw [htr] at h; simp at h
  | ok tn =>
    rw [htr] at h
    cases hp : pollLoop env timeout with
    | transportAbort k e => rw [hp] at h; simp at h
    | timeoutHit k => rw [hp] at h; simp at h
    | fuelExhausted => rw [hp] at h; simp at h
    | ready k s =>
      rw [hp] at h
      cases hr : runRestores env 0 n with
      | error p => rw [hr] at h; rcases p with ⟨created, e⟩; simp at h
      | ok wss' =>
        rw [hr] at h
        simp only [ForkResult.ok.injEq] at h
        rw [h]

/-- The Gateway hands out distinct workspace ids across the (at most `n`)
restore calls of one fork — the environment assumption behind "distinct
identifiers". -/
def RestoreInjective (env : ForkEnv) (n : Nat) : Prop :=
  ∀ i j a, i < n → j < n → env.restore i = .ok a → env.restore j = .ok a → i = j

lemma fork_ok_nodup (env : ForkEnv) (n : Nat) (timeout : ℚ) (wss : List String)
    (h : (fork env n timeout).result = .ok wss) (hinj : RestoreInjective env n) :
    wss.Nodup := by
  obtain ⟨hlen, hidx⟩ := runRestores_ok env n 0 wss (fork_ok_runRestores env n timeout wss h)
  rw [List.nodup_iff_injective_get]
  rintro ⟨i, hi⟩ ⟨j, hj⟩ hij
  obtain ⟨a, ha, hga⟩ := hidx i (by omega)
  obtain ⟨b, hb, hgb⟩ := hidx j (by omega)
  rw [List.get?_eq_get hi] at hga
  rw [List.get?_eq_get hj] at hgb
  have hab : a = b := by
    have h1 : a = wss.get ⟨i, hi⟩ := by injection hga.symm
    have h2 : b = wss.get ⟨j, hj⟩ := by injection hgb.symm
    rw [h1, h2, hij]
  rw [hab] at ha
  rw [Nat.zero_add] at ha hb
  have := hinj i j b (by omega) (by omega) ha hb
  exact Fin.ext this

/-- Oracle for one `spawn_sub_agents` call: the fork oracle for the
`Workspace.fork` it issues, the behavior of each sub-agent task unit
(`_run_sub_agent(prompt, ws)` returns a response string or raises), and
the result of `delete_workspace` on each workspace id. -/
structure OrchEnv where
  forkEnv : ForkEnv
  runUnit : String → String → Except String String
  deleteWs : String → Except GatewayErr Unit

/-- One element of the `results` list `spawn_sub_agents` builds:
`{"prompt": ..., "response": ...}`. -/
structure TaskEntry where
  prompt : String
  response : String
deriving DecidableEq, Repr, Inhabited

/-- Indices (offset by `i`) of the outcomes that are raised exceptions. -/
def failingIndicesAux {E A : Type} : Nat → List (Except E A) → List Nat
  | _, [] => []
  | i, Except.error _ :: rest => i :: failingIndicesAux (i + 1) rest
  | i, Except.ok _ :: rest => failingIndicesAux (i + 1) rest

/-- Among the given indices, the one whose completion rank `sched i` is
smallest (ties broken towards the front of the list). -/
def firstCompleted (sched : Nat → Nat) : List Nat → Option Nat
  | [] => none
  | i :: rest =>
    match firstCompleted sched rest with
    | none => some i
    | some j => if sched j < sched i then some j else some i

/-- The successful values of the outcomes, in task order. -/
def okValues {E A : Type} : List (Except E A) → List A
  | [] => []
  | Except.ok a :: rest => a :: okValues rest
  | Except.error _ :: rest => okValues rest

/-- The exception raised by unit `i` (used only at indices that did fail). -/
def errAt {E A : Type} [Inhabited E] (outcomes : List (Except E A)) (i : Nat) : E :=
  match outcomes.get? i with
  | some (Except.error e) => e
  | _ => default

/-- Model of `await asyncio.gather(*tasks)` with the default
`return_exceptions=False`: `sched i` is the completion rank of unit `i`.
If no unit raises, gather returns all results in task order, independently
of `sched`; otherwise the exception of the first-completing failing unit
propagates to the awaiter (siblings keep running but their results are
lost). -/
def gatherModel {E A : Type} [Inhabited E] (sched : Nat → Nat)
    (outcomes : List (Except E A)) : Except E (List A) :=
  match firstCompleted sched (failingIndicesAux 0 outcomes) with
  | some i => .error (errAt outcomes i)
  | none => .ok (okValues outcomes)

/-- The `for ws in forked_workspaces: ws.delete()` loop: delete each
workspace in order; the first raising delete aborts the loop, so later
workspaces are not attempted.  Returns the ids `delete` was invoked on
(in order) together with the failure, if any. -/
def deleteLoop (env : OrchEnv) : List String → List String × Option (String × GatewayErr)
  | [] => ([], none)
  | w :: rest =>
    match env.deleteWs w with
    | .error e => ([w], some (w, e))
    | .ok _ =>
      let r := deleteLoop env rest
      (w :: r.1, r.2)

/-- How one `spawn_sub_agents` call terminates: the `results` list, a
fork-phase exception, a task-unit exception re-raised by the gather join,
or a deletion exception raised during the cleanup loop. -/
inductive OrchResult where
  | ok (results : List TaskEntry)
  | forkError (r : ForkResult)
  | unitError (e : String)
  | deleteError (ws : String) (e : GatewayErr)
deriving DecidableEq, Repr

/-- Result of one `spawn_sub_agents` call, instrumented with the ids
`delete` was invoked on before the call returned. -/
structure OrchOutcome where
  result : OrchResult
  deletesInvoked : List String
deriving DecidableEq, Repr

/-- One `spawn_sub_agents(task_prompts)` call under oracle `env` and
completion order `sched`: fork `len(task_prompts)` workspaces from the
manager's workspace (default `timeout=60.0`), pair prompts and forked
workspaces positionally (`zip`), gather all units, then delete each forked
workspace, and finally zip prompts with responses into the results list. -/
def spawn_sub_agents (env : OrchEnv) (task_prompts : List String)
    (sched : Nat → Nat) : OrchOutcome :=
  match (fork env.forkEnv task_prompts.length 60).result with
  | .ok forked_workspaces =>
    match gatherModel sched
        ((task_prompts.zip forked_workspaces).map fun pw => env.runUnit pw.1 pw.2) with
    | .error e => ⟨.unitError e, []⟩
    | .ok responses =>
      match deleteLoop env forked_workspaces with
      | (invoked, some (w, e)) => ⟨.deleteError w e, invoked⟩
      | (invoked, none) =>
        ⟨.ok ((task_prompts.zip responses).map fun pr => ⟨pr.1, pr.2⟩), invoked⟩
  | r => ⟨.forkError r, []⟩

lemma failingIndicesAux_nil {E A : Type} :
    ∀ (l : List (Except E A)) i, (∀ o ∈ l, ∃ a, o = .ok a) →
      failingIndicesAux i l = [] := by
  intro l
  induction l with
  | nil => intro i _; rfl
  | cons o rest ih =>
    intro i h
    obtain ⟨a, ha⟩ := h o (List.mem_cons_self o rest)
    subst ha
    exact ih (i + 1) (fun o ho => h o (List.mem_cons_of_mem _ ho))

lemma okValues_length {E A : Type} :
    ∀ l : List (Except E A), (∀ o ∈ l, ∃ a, o = .ok a) →
      (okValues l).length = l.length := by
  intro l
  induction l with
  | nil => intro _; rfl
  | cons o rest ih =>
    intro h
    obtain ⟨a, ha⟩ := h o (List.mem_cons_self o rest)
    subst ha
    simp only [okValues, List.length_cons]
    rw [ih (fun o ho => h o (List.mem_cons_of_mem _ ho))]

lemma okValues_get? {E A : Type} :
    ∀ (l : List (Except E A)), (∀ o ∈ l, ∃ a, o = .ok a) →
      ∀ i a, l.get? i = some (.ok a) → (okValues l).get? i = some a := by
  intro l
  induction l with
  | nil => intro _ i a h; simp at h
  | cons o rest ih =>
    intro h i a hga
    obtain ⟨b, hb⟩ := h o (List.mem_cons_self o rest)
    subst hb
    cases i with
    | zero =>
      simp only [List.get?] at hga
      injection hga with hga'
      injection hga' with hb'
      simp [okValues, hb']
    | succ i0 =>
      simp only [List.get?] at hga
      simpa [okValues] using ih (fun o ho => h o (List.mem_cons_of_mem _ ho)) i0 a hga

lemma gatherModel_ok {E A : Type} [Inhabited E] (sched : Nat → Nat)
    (l : List (Except E A)) (h : ∀ o ∈ l, ∃ a, o = .ok a) :
    gatherModel sched l = .ok (okValues l) := by
  unfold gatherModel
  rw [failingIndicesAux_nil l 0 h]
  rfl

lemma failingIndicesAux_ne_nil {E A : Type} (e : E) :
    ∀ (l : List (Except E A)) i, (Except.error e) ∈ l →
      failingIndicesAux i l ≠ [] := by
  intro l
  induction l with
  | nil => intro i h; simp at h
  | cons o rest ih =>
    intro i h
    cases o with
    | error e0 => simp [failingIndicesAux]
    | ok a =>
      have hmem : Except.error e ∈ rest := by
        rcases List.mem_cons.mp h with h1 | h1
        · exact absurd h1 (by simp)
        · exact h1
      exact ih (i + 1) hmem

lemma firstCompleted_ne_nil (sched : Nat → Nat) :
    ∀ l : List Nat, l ≠ [] → ∃ i, firstCompleted sched l = some i := by
  intro l hl
  cases l with
  | nil => exact absurd rfl hl
  | cons i rest =>
    rcases h : firstCompleted sched rest with _ | j
    · exact ⟨i, by simp [firstCompleted, h]⟩
    · by_cases hc : sched j < sched i
      · exact ⟨j, by simp [firstCompleted, h, hc]⟩
      · exact ⟨i, by simp [firstCompleted, h, hc]⟩

lemma gatherModel_error {E A : Type} [Inhabited E] (sched : Nat → Nat)
    (l : List (Except E A)) (e : E) (h : Except.error e ∈ l) :
    ∃ e₀, gatherModel sched l = .error e₀ := by
  obtain ⟨i, hi⟩ := firstCompleted_ne_nil sched _ (failingIndicesAux_ne_nil e l 0 h)
  exact ⟨errAt l i, by unfold gatherModel; rw [hi]⟩

lemma deleteLoop_ok (env : OrchEnv) :
    ∀ l, (∀ w ∈ l, env.deleteWs w = .ok ()) → deleteLoop env l = (l, none) := by
  intro l
  induction l with
  | nil => intro _; rfl
  | cons w rest ih =>
    intro h
    have hw := h w (List.mem_cons_self w rest)
    simp only [deleteLoop]
    rw [hw, ih (fun x hx => h x (List.mem_cons_of_mem _ hx))]

lemma deleteLoop_fail (env : OrchEnv) (w : String) (e : GatewayErr)
    (hw : env.deleteWs w = .error e) :
    ∀ pre post, (∀ p ∈ pre, env.deleteWs p = .ok ()) →
      deleteLoop env (pre ++ w :: post) = (pre ++ [w], some (w, e)) := by
  intro pre
  induction pre with
  | nil =>
    intro post _
    simp only [List.nil_append, deleteLoop]
    rw [hw]
  | cons p rest ih =>
    intro post h
    have hp := h p (List.mem_cons_self p rest)
    have ihr := ih post (fun x hx => h x (List.mem_cons_of_mem _ hx))
    simp only [List.cons_append, deleteLoop, hp, List.append_eq]
    rw [ihr]

lemma zip_get? {α β : Type} :
    ∀ (l : List α) (m : List β) i a b,
      l.get? i = some a → m.get? i = some b → (l.zip m).get? i = some (a, b) := by
  intro l
  induction l with
  | nil => intro m i a b h _; simp at h
  | cons x rest ih =>
    intro m i a b h1 h2
    cases m with
    | nil => simp at h2
    | cons y mrest =>
      cases i with
      | zero =>
        simp only [List.get?] at h1 h2
        injection h1 with h1'
        injection h2 with h2'
        simp [List.zip_cons_cons, h1', h2']
      | succ i0 =>
        simp only [List.get?] at h1 h2
        simpa [List.zip_cons_cons] using ih mrest i0 a b h1 h2

/-- Whether a `ForkResult` is a snapshot-phase failure (trigger creation,
polling, or readiness), as opposed to success or a restore-phase failure. -/
def ForkResult.snapshotPhaseFailed : ForkResult → Bool
  | .triggerError _ => true
  | .pollTransportError _ => true
  | .timeoutError _ _ => true
  | _ => false

/-- Trace for the C3 counterexample: the trigger is created fine and every
status poll returns a body whose status is `failed` (and hence `ready` is
falsy); restores would succeed. -/
def envC3 : ForkEnv := ⟨.ok "trig", fun _ => .ok ⟨false, "", true⟩, fun _ => .ok "w"⟩

/-- C3, counterexample.  The claim says a poll observing status `failed`
makes `fork` fail immediately with `SnapshotFailedError`.  In the source
the loop only tests `status.get("ready")`, so with every poll reporting
`failed` and `timeout = 3`, `fork` polls 4 times (waiting out the whole
deadline) and raises the generic `TimeoutError` — there is no
snapshot-failed error path at all. -/
theorem fork_failed_status_not_fail_fast :
    envC3.poll 0 = .ok ⟨false, "", true⟩ ∧
    fork envC3 1 3 = ⟨.timeoutError "trig" 3, 1, 4, 0⟩ := by decide

/-- C3, amended: a trigger stuck in `failed` status is treated exactly
like `pending` — `fork` keeps polling until the wall-clock deadline
elapses and then raises the `TimeoutError` naming the trigger, issuing
`⌈timeout⌉₊ + 1` status polls and no restore calls. -/
theorem fork_failed_status_waits_out_deadline (env : ForkEnv) (tn : String)
    (n : Nat) (timeout : ℚ)
    (htr : env.triggerResult = .ok tn)
    (hfail : ∀ k, k ≤ ⌈timeout⌉₊ →
      ∃ s, env.poll k = .ok s ∧ s.statusIsFailed = true ∧ s.ready = false) :
    fork env n timeout = ⟨.timeoutError tn timeout, 1, ⌈timeout⌉₊ + 1, 0⟩ := by
  have hp : pollLoop env timeout = .timeoutHit ⌈timeout⌉₊ := by
    apply pollLoop_timeout
    intro j hj
    obtain ⟨s, hs, _, hr⟩ := hfail j hj
    rw [hs]
    exact hr
  unfold fork
  simp only [htr, hp]

theorem fork_failed_status_waits_out_deadline_witness :
    fork envC3 2 2 = ⟨.timeoutError "trig" 2, 1, 3, 0⟩ := by
  have h := fork_failed_status_waits_out_deadline envC3 "trig" 2 2 rfl
    (fun k _ => ⟨⟨false, "", true⟩, rfl, rfl, rfl⟩)
  have hc : ⌈(2 : ℚ)⌉₊ + 1 = 3 := by decide
  rw [hc] at h
  exact h

/-- Trace for the C4 counterexample: the first status poll dies with a
transport-level error; from the second poll on the trigger is ready. -/
def envC4 : ForkEnv :=
  ⟨.ok "trig", fun k => if k = 0 then .transportErr ⟨"connect error"⟩ else .ok readySnap,
   fun _ => .ok "w0"⟩

/-- C4, counterexample.  The claim says a transport-level error of the
status endpoint is treated as "not yet ready" and polling continues.  The
source's `except httpx.HTTPStatusError` clause does not catch transport
errors (`httpx.TransportError` is not a subclass of `HTTPStatusError`),
so the error propagates and the fork dies at poll 0 — even though the
very next poll, far inside the 60 s deadline, would have reported ready. -/
theorem fork_transport_error_aborts_polling :
    envC4.poll 1 = .ok readySnap ∧
    fork envC4 1 60 = ⟨.pollTransportError ⟨"connect error"⟩, 1, 1, 0⟩ := by decide

/-- C4, amended: only a poll failing with an HTTP status error
(`raise_for_status` raising `httpx.HTTPStatusError`) is treated as "not
yet ready": polling continues, and the fork still succeeds if a later poll
before the deadline reports ready.  A transport-level poll error instead
propagates out of `fork` (see the counterexample). -/
theorem fork_http_status_error_treated_as_not_ready (env : ForkEnv) (tn : String)
    (n : Nat) (timeout : ℚ) (k : Nat) (s : StatusResp) (wss : List String)
    (htr : env.triggerResult = .ok tn)
    (hbefore : ∀ j, j < k → env.poll j = .httpStatusErr ∧ (j : ℚ) < timeout)
    (hk : env.poll k = .ok s) (hr : s.ready = true)
    (hres : runRestores env 0 n = .ok wss) :
    fork env n timeout = ⟨.ok wss, 1, k + 1, n⟩ := by
  have hp : pollLoop env timeout = .ready k s := by
    apply pollLoop_ready env timeout k s hk hr
    intro j hj
    obtain ⟨h1, h2⟩ := hbefore j hj
    refine ⟨?_, h2⟩
    rw [h1]
    trivial
  unfold fork
  simp only [htr, hp, hres]

/-- Trace for the C4 witness: two HTTP status errors, then ready. -/
def envC4w : ForkEnv :=
  ⟨.ok "trg4", fun k => if k < 2 then .httpStatusErr else .ok readySnap, fun _ => .ok "w4"⟩

theorem fork_http_status_error_treated_as_not_ready_witness :
    fork envC4w 1 10 = ⟨.ok ["w4"], 1, 3, 1⟩ :=
  fork_http_status_error_treated_as_not_ready envC4w "trg4" 1 10 2 readySnap ["w4"]
    rfl
    (fun j hj => ⟨by interval_cases j <;> rfl, by interval_cases j <;> norm_num⟩)
    rfl rfl rfl

/-- C5: for every fork call with `count = n`, either `fork` returns
exactly `n` workspace handles — distinct whenever the Gateway hands out
distinct ids across the restore calls — or, when the snapshot phase
(trigger creation or readiness) fails, it fails having issued zero
restore calls. -/
theorem fork_cardinality_and_snapshot_phase (env : ForkEnv) (n : Nat) (timeout : ℚ) :
    (∀ wss, (fork env n timeout).result = .ok wss →
        wss.length = n ∧ (RestoreInjective env n → wss.Nodup)) ∧
    ((fork env n timeout).result.snapshotPhaseFailed = true →
        (fork env n timeout).restoreCalls = 0) := by
  constructor
  · intro wss h
    have hres := fork_ok_runRestores env n timeout wss h
    obtain ⟨hlen, _⟩ := runRestores_ok env n 0 wss hres
    exact ⟨hlen, fun hinj => fork_ok_nodup env n timeout wss h hinj⟩
  · cases htr : env.triggerResult with
    | error e => intro _h; simp [fork, htr]
    | ok tn =>
      cases hp : pollLoop env timeout with
      | transportAbort k e => intro _h; simp [fork, htr, hp]
      | timeoutHit k => intro _h; simp [fork, htr, hp]
      | fuelExhausted => intro _h; simp [fork, htr, hp]
      | ready k s =>
        intro h
        exfalso
        cases hres : runRestores env 0 n with
        | ok wss =>
          simp [fork, htr, hp, hres, ForkResult.snapshotPhaseFailed] at h
        | error p =>
          rcases p with ⟨c, e⟩
          simp [fork, htr, hp, hres, ForkResult.snapshotPhaseFailed] at h

/-- Trace for the C5 witness, success side: ready at once, restores hand
out distinct ids. -/
def envC5a : ForkEnv :=
  ⟨.ok "trg5", fun _ => .ok readySnap, fun k => .ok (if k = 0 then "w0" else "w1")⟩

/-- Trace for the C5 witness, failure side: trigger creation is refused. -/
def envC5b : ForkEnv :=
  ⟨.error ⟨"trigger refused"⟩, fun _ => .ok readySnap, fun _ => .ok "w"⟩

theorem fork_cardinality_and_snapshot_phase_witness :
    (["w0", "w1"] : List String).length = 2 ∧ (["w0", "w1"] : List String).Nodup ∧
    (fork envC5b 2 5).restoreCalls = 0 := by
  have h1 := (fork_cardinality_and_snapshot_phase envC5a 2 5).1 ["w0", "w1"] (by decide)
  have h2 := (fork_cardinality_and_snapshot_phase envC5b 2 5).2 (by decide)
  refine ⟨h1.1, h1.2 ?_, h2⟩
  intro i j a hi hj ha hb
  interval_cases i <;> interval_cases j
  · rfl
  · exfalso
    simp [envC5a] at ha hb
    rw [← ha] at hb
    exact absurd hb (by decide)
  · exfalso
    simp [envC5a] at ha hb
    rw [← ha] at hb
    exact absurd hb (by decide)
  · rfl

/-- C7: if the trigger is created but no poll up to the deadline reports
ready (each returns a non-ready body or a caught HTTP status error), then
`fork` raises the timeout error naming the trigger and the timeout, after
`⌈timeout⌉₊ + 1` polls and zero restore calls. -/
theorem fork_timeout_names_trigger_no_restores (env : ForkEnv) (tn : String)
    (n : Nat) (timeout : ℚ)
    (htr : env.triggerResult = .ok tn)
    (h : ∀ k, k ≤ ⌈timeout⌉₊ → pollContinues (env.poll k)) :
    fork env n timeout = ⟨.timeoutError tn timeout, 1, ⌈timeout⌉₊ + 1, 0⟩ := by
  have hp := pollLoop_timeout env timeout h
  unfold fork
  simp only [htr, hp]

/-- Trace for the C7 witness: every poll is a caught HTTP status error. -/
def envC7 : ForkEnv := ⟨.ok "trg7", fun _ => .httpStatusErr, fun _ => .ok "w"⟩

theorem fork_timeout_names_trigger_no_restores_witness :
    fork envC7 5 1 = ⟨.timeoutError "trg7" 1, 1, 2, 0⟩ := by
  have h := fork_timeout_names_trigger_no_restores envC7 "trg7" 5 1 rfl
    (fun k _ => trivial)
  have hc : ⌈(1 : ℚ)⌉₊ + 1 = 2 := by decide
  rw [hc] at h
  exact h

/-- C10: the readiness test precedes the deadline test in the loop body,
so (whatever the timeout, even zero or negative) at least one status poll
is always issued, and a fork whose very first poll reports ready succeeds
with exactly one poll instead of raising the timeout error. -/
theorem fork_polls_once_and_first_poll_ready_succeeds (env : ForkEnv)
    (n : Nat) (timeout : ℚ) (tn : String)
    (htr : env.triggerResult = .ok tn) :
    1 ≤ (fork env n timeout).pollCalls ∧
    ∀ s wss, env.poll 0 = .ok s → s.ready = true → runRestores env 0 n = .ok wss →
      fork env n timeout = ⟨.ok wss, 1, 1, n⟩ := by
  constructor
  · unfold fork
    simp only [htr]
    cases hp : pollLoop env timeout with
    | ready k s =>
      cases hres : runRestores env 0 n with
      | ok wss => show 1 ≤ k + 1; omega
      | error p => rcases p with ⟨c, e⟩; show 1 ≤ k + 1; omega
    | timeoutHit k => show 1 ≤ k + 1; omega
    | transportAbort k e => show 1 ≤ k + 1; omega
    | fuelExhausted => exact absurd hp (pollLoop_ne_fuelExhausted env timeout)
  · intro s wss hs hr hres
    have hp : pollLoop env timeout = .ready 0 s :=
      pollLoop_ready env timeout 0 s hs hr (fun j hj => absurd hj (Nat.not_lt_zero j))
    unfold fork
    simp only [htr, hp, hres]

/-- Trace for the C10 witness: ready at the very first poll, with a
negative timeout. -/
def envC10 : ForkEnv := ⟨.ok "trgX", fun _ => .ok readySnap, fun _ => .ok "wX"⟩

theorem fork_polls_once_and_first_poll_ready_succeeds_witness :
    1 ≤ (fork envC10 1 (-1)).pollCalls ∧ fork envC10 1 (-1) = ⟨.ok ["wX"], 1, 1, 1⟩ := by
  have h := fork_polls_once_and_first_poll_ready_succeeds envC10 1 (-1) "trgX" rfl
  exact ⟨h.1, h.2 readySnap ["wX"] rfl rfl rfl⟩

lemma spawn_units_ok_eq (env : OrchEnv) (task_prompts : List String)
    (sched : Nat → Nat) (wss : List String)
    (hfork : (fork env.forkEnv task_prompts.length 60).result = .ok wss)
    (hunits : ∀ pw ∈ task_prompts.zip wss, ∃ r, env.runUnit pw.1 pw.2 = .ok r) :
    spawn_sub_agents env task_prompts sched =
      match deleteLoop env wss with
      | (invoked, some (w, e)) => ⟨.deleteError w e, invoked⟩
      | (invoked, none) =>
        ⟨.ok ((task_prompts.zip
            (okValues ((task_prompts.zip wss).map fun pw => env.runUnit pw.1 pw.2))).map
          fun pr => ⟨pr.1, pr.2⟩), invoked⟩ := by
  have hall : ∀ o ∈ (task_prompts.zip wss).map (fun pw => env.runUnit pw.1 pw.2),
      ∃ a, o = .ok a := by
    intro o ho
    obtain ⟨pw, hpw, hfo⟩ := List.mem_map.mp ho
    obtain ⟨r, hr⟩ := hunits pw hpw
    exact ⟨r, by rw [← hfo, hr]⟩
  unfold spawn_sub_agents
  simp only [hfork]
  rw [gatherModel_ok sched _ hall]

/-- Trace for the C1 counterexample: the fork succeeds with two
workspaces, the unit for prompt `"a"` raises, the other returns fine, and
any deletion would succeed. -/
def envC1 : OrchEnv :=
  ⟨⟨.ok "trig", fun _ => .ok readySnap, fun k => .ok (if k = 0 then "w0" else "w1")⟩,
   fun p _ => if p = "a" then .error "boom" else .ok "done",
   fun _ => .ok ()⟩

/-- C1, counterexample.  The claim says every forked workspace is deleted
exactly once before the call returns regardless of task outcome.  In the
source `asyncio.gather` uses the default `return_exceptions=False`, so one
raising unit propagates out of `await` and the `for ws in
forked_workspaces: ws.delete()` loop never runs: with a successful fork of
two workspaces and one failing unit, both workspaces get zero `delete`
invocations. -/
theorem spawn_unit_failure_skips_cleanup :
    (fork envC1.forkEnv 2 60).result = .ok ["w0", "w1"] ∧
    (spawn_sub_agents envC1 ["a", "b"] id).deletesInvoked.count "w0" = 0 ∧
    (spawn_sub_agents envC1 ["a", "b"] id).deletesInvoked.count "w1" = 0 := by decide

/-- C1, amended: when the fork phase succeeds, the Gateway hands out
distinct ids, every task unit completes without raising, and every
deletion succeeds, each forked workspace has `delete` invoked exactly once
before `spawn_sub_agents` returns.  (When a unit raises, no deletion is
invoked at all — see the counterexample.) -/
theorem spawn_cleanup_exactly_once_on_success (env : OrchEnv)
    (task_prompts : List String) (sched : Nat → Nat) (wss : List String)
    (hfork : (fork env.forkEnv task_prompts.length 60).result = .ok wss)
    (hinj : RestoreInjective env.forkEnv task_prompts.length)
    (hunits : ∀ pw ∈ task_prompts.zip wss, ∃ r, env.runUnit pw.1 pw.2 = .ok r)
    (hdel : ∀ w ∈ wss, env.deleteWs w = .ok ()) :
    ∀ w ∈ wss, ((spawn_sub_agents env task_prompts sched).deletesInvoked).count w = 1 := by
  intro w hw
  have hsp := spawn_units_ok_eq env task_prompts sched wss hfork hunits
  rw [deleteLoop_ok env wss hdel] at hsp
  rw [hsp]
  have hnodup := fork_ok_nodup env.forkEnv task_prompts.length 60 wss hfork hinj
  show wss.count w = 1
  exact List.count_eq_one_of_mem hnodup hw

/-- Trace for the C1 witness: one prompt, one forked workspace, everything
succeeds. -/
def envC1w : OrchEnv :=
  ⟨⟨.ok "trg1", fun _ => .ok readySnap, fun _ => .ok "w0"⟩,
   fun _ _ => .ok "done", fun _ => .ok ()⟩

theorem spawn_cleanup_exactly_once_on_success_witness :
    ((spawn_sub_agents envC1w ["a"] id).deletesInvoked).count "w0" = 1 :=
  spawn_cleanup_exactly_once_on_success envC1w ["a"] id ["w0"] (by decide)
    (fun i j a hi hj _ _ => by simp at hi hj; omega)
    (fun pw _ => ⟨"done", rfl⟩)
    (fun w _ => rfl)
    "w0" (by decide)

/-- Whether a `spawn_sub_agents` call died with a task unit's exception. -/
def OrchResult.isUnitError : OrchResult → Bool
  | .unitError _ => true
  | _ => false

/-- Trace for the C2 counterexample: two units, the first raises and the
second completes normally. -/
def envC2 : OrchEnv :=
  ⟨⟨.ok "trig", fun _ => .ok readySnap, fun k => .ok (if k = 0 then "w0" else "w1")⟩,
   fun p _ => if p = "a" then .error "boom" else .ok "done-b",
   fun _ => .ok ()⟩

/-- C2, counterexample.  The claim says a failing unit is captured as a
per-task failure record in the returned result list and is never raised
as a call-level exception.  With `asyncio.gather(..., return_exceptions=False)`
the first failing unit's exception propagates out of `spawn_sub_agents`:
the sibling unit's successful response (`"done-b"`) is never reported and
no result list is returned at all. -/
theorem spawn_unit_failure_raises_out :
    (fork envC2.forkEnv 2 60).result = .ok ["w0", "w1"] ∧
    envC2.runUnit "b" "w1" = .ok "done-b" ∧
    (spawn_sub_agents envC2 ["a", "b"] id).result = .unitError "boom" :=
  ⟨by decide, rfl, by decide⟩

/-- C2, amended: when the fork succeeds and some task unit raises, the
exception propagates out of `spawn_sub_agents` as a call-level unit error
(no result list is produced), and no deletion is invoked either. -/
theorem spawn_unit_failure_is_call_level (env : OrchEnv)
    (task_prompts : List String) (sched : Nat → Nat) (wss : List String)
    (pw : String × String) (e : String)
    (hfork : (fork env.forkEnv task_prompts.length 60).result = .ok wss)
    (hpw : pw ∈ task_prompts.zip wss)
    (hfail : env.runUnit pw.1 pw.2 = .error e) :
    (spawn_sub_agents env task_prompts sched).result.isUnitError = true ∧
    (spawn_sub_agents env task_prompts sched).deletesInvoked = [] := by
  have hmem : Except.error e ∈ (task_prompts.zip wss).map (fun pw => env.runUnit pw.1 pw.2) := by
    rw [← hfail]
    exact List.mem_map_of_mem _ hpw
  obtain ⟨e₀, he₀⟩ := gatherModel_error sched _ e hmem
  unfold spawn_sub_agents
  simp only [hfork, he₀]
  exact ⟨rfl, trivial⟩

/-- Trace for the C2 witness: a single unit that raises. -/
def envC2w : OrchEnv :=
  ⟨⟨.ok "trg2", fun _ => .ok readySnap, fun _ => .ok "w0"⟩,
   fun _ _ => .error "u-err", fun _ => .ok ()⟩

theorem spawn_unit_failure_is_call_level_witness :
    (spawn_sub_agents envC2w ["a"] id).result.isUnitError = true ∧
    (spawn_sub_agents envC2w ["a"] id).deletesInvoked = [] :=
  spawn_unit_failure_is_call_level envC2w ["a"] id ["w0"] ("a", "w0") "u-err"
    (by decide) (by decide) rfl

/-- C6: when the fork succeeds and every unit and every deletion succeed,
`spawn_sub_agents` returns a result list of the same length and order as
the input prompts, pairing positionally: entry `i` carries prompt `i` and
the response the unit computed on forked workspace `i` — for every
completion order `sched` of the concurrent units. -/
theorem spawn_results_positional (env : OrchEnv) (task_prompts : List String)
    (sched : Nat → Nat) (wss : List String)
    (hfork : (fork env.forkEnv task_prompts.length 60).result = .ok wss)
    (hunits : ∀ pw ∈ task_prompts.zip wss, ∃ r, env.runUnit pw.1 pw.2 = .ok r)
    (hdel : ∀ w ∈ wss, env.deleteWs w = .ok ()) :
    ∃ results, (spawn_sub_agents env task_prompts sched).result = .ok results ∧
      results.length = task_prompts.length ∧
      ∀ i, i < task_prompts.length →
        ∃ p w r, task_prompts.get? i = some p ∧ wss.get? i = some w ∧
          env.runUnit p w = .ok r ∧ results.get? i = some ⟨p, r⟩ := by
  have hall : ∀ o ∈ (task_prompts.zip wss).map (fun pw => env.runUnit pw.1 pw.2),
      ∃ a, o = .ok a := by
    intro o ho
    obtain ⟨pw, hpw, hfo⟩ := List.mem_map.mp ho
    obtain ⟨r, hr⟩ := hunits pw hpw
    exact ⟨r, by rw [← hfo, hr]⟩
  have hwlen : wss.length = task_prompts.length :=
    (runRestores_ok env.forkEnv task_prompts.length 0 wss
      (fork_ok_runRestores env.forkEnv task_prompts.length 60 wss hfork)).1
  have hsp := spawn_units_ok_eq env task_prompts sched wss hfork hunits
  rw [deleteLoop_ok env wss hdel] at hsp
  set outcomes := (task_prompts.zip wss).map (fun pw => env.runUnit pw.1 pw.2) with houtc
  have holen : outcomes.length = task_prompts.length := by
    rw [houtc, List.length_map, List.length_zip, hwlen, Nat.min_self]
  have hrlen : (okValues outcomes).length = task_prompts.length := by
    rw [okValues_length outcomes hall, holen]
  refine ⟨(task_prompts.zip (okValues outcomes)).map fun pr => ⟨pr.1, pr.2⟩,
    by rw [hsp], ?_, ?_⟩
  · rw [List.length_map, List.length_zip, hrlen, Nat.min_self]
  · intro i hi
    have hiw : i < wss.length := by omega
    cases hpg : task_prompts.get? i with
    | none => exact absurd (List.get?_eq_none.mp hpg) (by omega)
    | some p =>
    cases hwg : wss.get? i with
    | none => exact absurd (List.get?_eq_none.mp hwg) (by omega)
    | some w =>
    have hzg := zip_get? task_prompts wss i p w hpg hwg
    have homem : (p, w) ∈ task_prompts.zip wss := List.get?_mem hzg
    obtain ⟨r, hr⟩ := hunits _ homem
    have hr2 : env.runUnit p w = Except.ok r := hr
    have hog : outcomes.get? i = some (.ok r) := by
      rw [houtc, List.get?_map, hzg]
      simpa using hr2
    have hvg : (okValues outcomes).get? i = some r := okValues_get? outcomes hall i r hog
    have hzg2 := zip_get? task_prompts (okValues outcomes) i p r hpg hvg
    have hD : ((task_prompts.zip (okValues outcomes)).map
        fun pr => (⟨pr.1, pr.2⟩ : TaskEntry)).get? i = some ⟨p, r⟩ := by
      rw [List.get?_map, hzg2]
      rfl
    exact ⟨p, w, r, rfl, rfl, hr2, hD⟩

/-- Trace for the C6 witness: two prompts; each unit's response encodes
both its prompt and its workspace, making the positional pairing visible
in the result list. -/
def envC6 : OrchEnv :=
  ⟨⟨.ok "trg6", fun _ => .ok readySnap, fun k => .ok (if k = 0 then "wA" else "wB")⟩,
   fun p w => .ok (p ++ w), fun _ => .ok ()⟩

theorem spawn_results_positional_witness :
    (spawn_sub_agents envC6 ["a", "b"] id).result = .ok [⟨"a", "awA"⟩, ⟨"b", "bwB"⟩] := by
  obtain ⟨results, hres, hlen, hidx⟩ := spawn_results_positional envC6 ["a", "b"] id
    ["wA", "wB"] (by decide) (fun pw _ => ⟨pw.1 ++ pw.2, rfl⟩) (fun w _ => rfl)
  obtain ⟨p0, w0, r0, hp0, hw0, hr0, hg0⟩ := hidx 0 (by norm_num)
  obtain ⟨p1, w1, r1, hp1, hw1, hr1, hg1⟩ := hidx 1 (by norm_num)
  simp only [List.get?] at hp0 hw0 hp1 hw1
  injection hp0 with hp0'; injection hw0 with hw0'
  injection hp1 with hp1'; injection hw1 with hw1'
  subst hp0'; subst hw0'; subst hp1'; subst hw1'
  simp only [envC6] at hr0 hr1
  injection hr0 with hr0'; injection hr1 with hr1'
  rw [hres]
  congr 1
  apply List.ext_get?
  intro n
  match n with
  | 0 => rw [hg0, ← hr0']; rfl
  | 1 => rw [hg1, ← hr1']; rfl
  | n + 2 =>
    have h2 : results.get? (n + 2) = none := by
      apply List.get?_eq_none.mpr
      rw [hlen]
      show 2 ≤ n + 2
      omega
    rw [h2]
    rfl

/-- Trace for the C8 counterexample and witness (fork side): trigger ok,
ready at the first poll. -/
def envC8 : ForkEnv := ⟨.ok "trg8", fun _ => .ok readySnap, fun _ => .ok "w"⟩

/-- C8, counterexample.  The claim says `fork` with `count == 0` returns
an empty list *without creating a snapshot trigger* and with no network
calls beyond (at most) trigger creation.  The source has no short-circuit:
with `num_of_workspace = 0` it still creates the trigger (1 call) and
still polls the status endpoint (1 call beyond trigger creation) before
returning the empty list. -/
theorem fork_count_zero_still_triggers_and_polls :
    fork envC8 0 5 = ⟨.ok [], 1, 1, 0⟩ := by decide

/-- C8, amended: `fork` with `count = 0` does not short-circuit — it still
creates the snapshot trigger and polls until ready — but then returns the
empty workspace list with zero restore calls; and `spawn_sub_agents` with
an empty task list (whose internal fork succeeds the same way) returns an
empty result list with no deletions. -/
theorem fork_count_zero_and_empty_batch (fenv : ForkEnv) (oenv : OrchEnv)
    (timeout : ℚ) (tn tn' : String) (k k' : Nat) (s s' : StatusResp)
    (sched : Nat → Nat)
    (htr : fenv.triggerResult = .ok tn)
    (hready : pollLoop fenv timeout = .ready k s)
    (htr' : oenv.forkEnv.triggerResult = .ok tn')
    (hready' : pollLoop oenv.forkEnv 60 = .ready k' s') :
    fork fenv 0 timeout = ⟨.ok [], 1, k + 1, 0⟩ ∧
    spawn_sub_agents oenv [] sched = ⟨.ok [], []⟩ := by
  constructor
  · unfold fork
    simp only [htr, hready]
    rfl
  · have hf : (fork oenv.forkEnv 0 60).result = .ok [] := by
      unfold fork
      simp only [htr', hready']
      rfl
    unfold spawn_sub_agents
    simp only [List.length_nil, hf]
    rfl

/-- Trace for the C8 witness (orchestrator side). -/
def envC8w : OrchEnv :=
  ⟨⟨.ok "trg8b", fun _ => .ok readySnap, fun _ => .ok "w"⟩,
   fun _ _ => .ok "r", fun _ => .ok ()⟩

theorem fork_count_zero_and_empty_batch_witness :
    fork envC8 0 7 = ⟨.ok [], 1, 1, 0⟩ ∧
    spawn_sub_agents envC8w [] id = ⟨.ok [], []⟩ :=
  fork_count_zero_and_empty_batch envC8 envC8w 7 "trg8" "trg8b" 0 0
    readySnap readySnap id rfl (by decide) rfl (by decide)

/-- Trace for the C9 counterexample: fork of two workspaces, both units
succeed, deleting the first workspace fails, deleting the second would
succeed. -/
def envC9 : OrchEnv :=
  ⟨⟨.ok "trg9", fun _ => .ok readySnap, fun k => .ok (if k = 0 then "w0" else "w1")⟩,
   fun _ _ => .ok "done",
   fun w => if w = "w0" then .error ⟨"delete refused"⟩ else .ok ()⟩

/-- C9, counterexample.  The claim says one deletion failure does not
prevent the remaining workspaces' deletion from being attempted, and that
cleanup failures are reported alongside the result batch.  In the source
the `for ws in forked_workspaces: ws.delete()` loop has no error handling:
the first failing `delete` raises, `"w1"`'s deletion is never attempted
(`deletesInvoked = ["w0"]`), and the exception replaces the result batch. -/
theorem spawn_delete_failure_stops_cleanup :
    envC9.deleteWs "w1" = .ok () ∧
    spawn_sub_agents envC9 ["a", "b"] id =
      ⟨.deleteError "w0" ⟨"delete refused"⟩, ["w0"]⟩ :=
  ⟨rfl, by decide⟩

/-- C9, amended: a deletion failure during teardown propagates
immediately: `delete` is invoked on the workspaces before the failing one
and on the failing one itself, the remaining workspaces' deletion is not
attempted, and the deletion exception is raised in place of the result
batch. -/
theorem spawn_delete_failure_propagates (env : OrchEnv)
    (task_prompts : List String) (sched : Nat → Nat)
    (pre post : List String) (w : String) (e : GatewayErr)
    (hfork : (fork env.forkEnv task_prompts.length 60).result = .ok (pre ++ w :: post))
    (hunits : ∀ pw ∈ task_prompts.zip (pre ++ w :: post), ∃ r, env.runUnit pw.1 pw.2 = .ok r)
    (hpre : ∀ p ∈ pre, env.deleteWs p = .ok ())
    (hw : env.deleteWs w = .error e) :
    spawn_sub_agents env task_prompts sched = ⟨.deleteError w e, pre ++ [w]⟩ := by
  have hsp := spawn_units_ok_eq env task_prompts sched (pre ++ w :: post) hfork hunits
  rw [deleteLoop_fail env w e hw pre post hpre] at hsp
  exact hsp

/-- Trace for the C9 witness: two workspaces, the second one's deletion
fails. -/
def envC9w : OrchEnv :=
  ⟨⟨.ok "trg9b", fun _ => .ok readySnap, fun k => .ok (if k = 0 then "wA" else "wB")⟩,
   fun _ _ => .ok "done",
   fun w => if w = "wB" then .error ⟨"boom-del"⟩ else .ok ()⟩

theorem spawn_delete_failure_propagates_witness :
    spawn_sub_agents envC9w ["a", "b"] id =
      ⟨.deleteError "wB" ⟨"boom-del"⟩, ["wA", "wB"]⟩ :=
  spawn_delete_failure_propagates envC9w ["a", "b"] id ["wA"] [] "wB" ⟨"boom-del"⟩
    (by decide) (fun pw _ => ⟨"done", rfl⟩) (fun p hp => by fin_cases hp; rfl) rfl

end ManagerAgent
